import Mathlib

/-!
Verification of the RTP voice chat core: the RTP packet codec
(RTPPacket.pack / RTPPacket.unpack) and the streaming session
(RTPVoiceChat) with its sender and receiver loops.

Bytes are modelled as natural numbers below 256 and wire data as lists of
bytes.  Machine-level packing (Python struct.pack with format !III) is
modelled explicitly: it fails when a word does not fit in 32 bits, exactly
as struct.pack raises for an out-of-range argument.  The audio and socket
collaborators are abstracted: captured chunks are inputs to the sender
loop, received datagrams are inputs to the receiver loop, and playback is
a log of written payloads.
-/

namespace RTPVoice

/-- RTP packet structure, mirroring the RTPPacket class field for field.
The default values mirror the constructor defaults of the source. -/
structure RTPPacket where
  version : Nat := 2
  padding : Nat := 0
  extension : Nat := 0
  cc : Nat := 0
  marker : Nat := 0
  payload_type : Nat := 0
  sequence_number : Nat := 0
  timestamp : Nat := 0
  ssrc : Nat := 0
  payload : List Nat := []
deriving Repr, DecidableEq

/-- Bitwise or by binary recursion on an explicit fuel argument.  This is
extensionally equal to Nat.lor (theorem borAux_eq_lor below); the fuelled
structural formulation only exists so that terms built from it stay cheap
to reduce. -/
def borAux : Nat → Nat → Nat → Nat
  | 0, a, b => a + b
  | fuel + 1, a, b =>
      if a = 0 then b
      else if b = 0 then a
      else 2 * borAux fuel (a / 2) (b / 2) + (if a % 2 = 1 ∨ b % 2 = 1 then 1 else 0)

/-- Bitwise or of two natural numbers, modelling the Python | operator;
equal to Nat.lor by theorem bor_eq_lor below. -/
def bor (a b : Nat) : Nat := borAux (a + b) a b

/-- The first 32-bit word of the header, exactly as the source computes it:
(version << 30) | (padding << 29) | (extension << 28) | (cc << 24) |
(marker << 23) | (payload_type << 16) | sequence_number, with | being
bitwise or (theorem firstWord_eq_or restates this with Nat.lor). -/
def RTPPacket.firstWord (p : RTPPacket) : Nat :=
  bor (bor (bor (bor (bor (bor (p.version <<< 30) (p.padding <<< 29))
    (p.extension <<< 28)) (p.cc <<< 24)) (p.marker <<< 23))
    (p.payload_type <<< 16)) p.sequence_number

/-- The four big-endian bytes of a 32-bit word, as struct.pack with
format !I produces them (assuming the word fits in 32 bits). -/
def u32be (w : Nat) : List Nat :=
  [w / 2 ^ 24 % 256, w / 2 ^ 16 % 256, w / 2 ^ 8 % 256, w % 256]

/-- Recombination of four big-endian bytes into one word, as struct.unpack
with format !I performs it. -/
def be32 (b0 b1 b2 b3 : Nat) : Nat :=
  ((b0 * 256 + b1) * 256 + b2) * 256 + b3

/-- RTPPacket.pack: builds the first header word, packs the three header
words big-endian (struct.pack with format !III) and appends the payload.
struct.pack raises for an argument not fitting in 32 bits; this is
modelled by returning none in that case. -/
def RTPPacket.pack (p : RTPPacket) : Option (List Nat) :=
  if p.firstWord < 2 ^ 32 ∧ p.timestamp < 2 ^ 32 ∧ p.ssrc < 2 ^ 32 then
    some (u32be p.firstWord ++ u32be p.timestamp ++ u32be p.ssrc ++ p.payload)
  else
    none

/-- RTPPacket.unpack: returns none when fewer than 12 bytes are given;
otherwise reads the three header words from the first 12 bytes
(struct.unpack with format !III), extracts the fields of the first word
by shifting and masking, and takes everything after byte 12 as payload. -/
def RTPPacket.unpack (data : List Nat) : Option RTPPacket :=
  match data with
  | b0 :: b1 :: b2 :: b3 :: b4 :: b5 :: b6 :: b7 :: b8 :: b9 :: b10 :: b11 :: rest =>
      let first_word := be32 b0 b1 b2 b3
      some { version := (first_word >>> 30) &&& 0x3
             padding := (first_word >>> 29) &&& 0x1
             extension := (first_word >>> 28) &&& 0x1
             cc := (first_word >>> 24) &&& 0xF
             marker := (first_word >>> 23) &&& 0x1
             payload_type := (first_word >>> 16) &&& 0x7F
             sequence_number := first_word &&& 0xFFFF
             timestamp := be32 b4 b5 b6 b7
             ssrc := be32 b8 b9 b10 b11
             payload := rest }
  | _ => none

/-- State of one PyAudio stream handle, as far as the session touches it. -/
structure StreamState where
  stopped : Bool := false
  closed : Bool := false
deriving Repr, DecidableEq

/-- stop_stream followed by close on a stream handle. -/
def StreamState.shutdown (st : StreamState) : StreamState :=
  { st with stopped := true, closed := true }

/-- Session state of RTPVoiceChat.  CHUNK is the fixed chunk size set in
the constructor; sequence_number and ssrc are the injected random initial
values (the constructor draws them from a random source); input_stream
and output_stream are none until start_stream creates them (mirroring the
hasattr checks of stop_chat); played logs the payloads written to the
playback collaborator by the receiver loop. -/
structure RTPVoiceChat where
  CHUNK : Nat
  sequence_number : Nat
  timestamp : Nat
  ssrc : Nat
  running : Bool
  input_stream : Option StreamState
  output_stream : Option StreamState
  audio_terminated : Bool
  socket_open : Bool
  played : List (List Nat)
deriving Repr, DecidableEq

/-- The RTPVoiceChat constructor: CHUNK = 1024, sequence_number and ssrc
set to the injected random values, timestamp = 0, socket bound and open,
not yet running, no streams opened yet. -/
def RTPVoiceChat.init (seq0 ssrc0 : Nat) : RTPVoiceChat :=
  { CHUNK := 1024
    sequence_number := seq0
    timestamp := 0
    ssrc := ssrc0
    running := false
    input_stream := none
    output_stream := none
    audio_terminated := false
    socket_open := true
    played := [] }

/-- start_stream: opens the input and output audio streams. -/
def RTPVoiceChat.start_stream (s : RTPVoiceChat) : RTPVoiceChat :=
  { s with input_stream := some {}, output_stream := some {} }

/-- start_chat up to the point where the loops run: sets running to true
and opens the streams. -/
def RTPVoiceChat.start_chat (s : RTPVoiceChat) : RTPVoiceChat :=
  RTPVoiceChat.start_stream { s with running := true }

/-- The RTP packet built by one iteration of send_audio: payload_type 0
(PCMU), the current sequence number, timestamp and ssrc of the session,
and the captured chunk as payload; the remaining fields keep their
constructor defaults (version 2, all flags 0). -/
def RTPVoiceChat.mkAudioPacket (s : RTPVoiceChat) (audio_data : List Nat) : RTPPacket :=
  { payload_type := 0
    sequence_number := s.sequence_number
    timestamp := s.timestamp
    ssrc := s.ssrc
    payload := audio_data }

/-- One iteration of the send_audio loop body: build the packet, pack and
send it, then advance sequence_number by 1 mod 65536 and timestamp by
CHUNK (the source adds CHUNK without any reduction).  When pack raises,
the exception handler breaks the loop before the counters are updated;
this is the none case. -/
def RTPVoiceChat.sendOne (s : RTPVoiceChat) (audio_data : List Nat) :
    Option (RTPVoiceChat × RTPPacket) :=
  match (RTPVoiceChat.mkAudioPacket s audio_data).pack with
  | none => none
  | some _ =>
      some ({ s with sequence_number := (s.sequence_number + 1) % 65536,
                     timestamp := s.timestamp + s.CHUNK },
            RTPVoiceChat.mkAudioPacket s audio_data)

/-- The send_audio loop, driven by the list of chunks the capture
collaborator delivers: while running, each chunk is packed and sent and
the counters advance; a pack failure breaks the loop.  Returns the final
session state and the packets sent, in order. -/
def RTPVoiceChat.send_audio :
    RTPVoiceChat → List (List Nat) → RTPVoiceChat × List RTPPacket
  | s, [] => (s, [])
  | s, c :: cs =>
      if s.running then
        match RTPVoiceChat.sendOne s c with
        | none => (s, [])
        | some (s1, pkt) =>
            let r := RTPVoiceChat.send_audio s1 cs
            (r.1, pkt :: r.2)
      else (s, [])

/-- One iteration of the receive_audio loop body on one datagram: unpack
it; when unpack returns a packet, write its payload to the playback
collaborator; otherwise do nothing. -/
def RTPVoiceChat.receiveIter (s : RTPVoiceChat) (data : List Nat) : RTPVoiceChat :=
  match RTPPacket.unpack data with
  | some pkt => { s with played := s.played ++ [pkt.payload] }
  | none => s

/-- The receive_audio loop, driven by the list of datagrams the socket
delivers: while running, each datagram is processed by receiveIter. -/
def RTPVoiceChat.receive_audio : RTPVoiceChat → List (List Nat) → RTPVoiceChat
  | s, [] => s
  | s, d :: ds =>
      if s.running then RTPVoiceChat.receive_audio (RTPVoiceChat.receiveIter s d) ds
      else s

/-- stop_chat: sets running to false, stops and closes each audio stream
that exists (the hasattr checks), terminates the audio system and closes
the socket. -/
def RTPVoiceChat.stop_chat (s : RTPVoiceChat) : RTPVoiceChat :=
  { s with running := false
           input_stream := s.input_stream.map StreamState.shutdown
           output_stream := s.output_stream.map StreamState.shutdown
           audio_terminated := true
           socket_open := false }

/-- Big-endian word read at offset i of a byte list, used to state what
unpack returns in terms of the raw input. -/
def word32At (data : List Nat) (i : Nat) : Nat :=
  be32 (data.getD i 0) (data.getD (i + 1) 0) (data.getD (i + 2) 0) (data.getD (i + 3) 0)

/-- One binary digit step of bitwise or: splitting both arguments into
low bit and upper part commutes with Nat.lor. -/
theorem lor_decomp (a b : Nat) :
    2 * (a / 2 ||| b / 2) + (if a % 2 = 1 ∨ b % 2 = 1 then 1 else 0) = a ||| b := by
  conv_rhs =>
    rw [← Nat.bit_decide_mod_two_eq_one_shiftRight_one a,
      ← Nat.bit_decide_mod_two_eq_one_shiftRight_one b]
  rw [Nat.lor_bit, Nat.bit_val, Nat.shiftRight_one, Nat.shiftRight_one]
  congr 1
  rcases Nat.mod_two_eq_zero_or_one a with ha | ha <;>
    rcases Nat.mod_two_eq_zero_or_one b with hb | hb <;>
      simp [ha, hb]

/-- With enough fuel, borAux computes Nat.lor. -/
theorem borAux_eq_lor (fuel a b : Nat) (ha : a < 2 ^ fuel) :
    borAux fuel a b = a ||| b := by
  induction fuel generalizing a b with
  | zero =>
      have h0 : a = 0 := by simpa using ha
      subst h0
      simp [borAux]
  | succ fuel ih =>
      by_cases h0 : a = 0
      · subst h0; simp [borAux]
      by_cases h1 : b = 0
      · subst h1; simp [borAux, h0]
      have hstep : borAux (fuel + 1) a b
          = 2 * borAux fuel (a / 2) (b / 2) + (if a % 2 = 1 ∨ b % 2 = 1 then 1 else 0) := by
        simp [borAux, h0, h1]
      have hdiv : a / 2 < 2 ^ fuel := by
        rw [Nat.div_lt_iff_lt_mul (by norm_num)]
        rw [pow_succ] at ha
        exact ha
      rw [hstep, ih (a / 2) (b / 2) hdiv]
      exact lor_decomp a b

/-- bor is Nat.lor: the fuel a + b always suffices. -/
theorem bor_eq_lor (a b : Nat) : bor a b = a ||| b :=
  borAux_eq_lor (a + b) a b
    (lt_of_lt_of_le (Nat.lt_two_pow a) (Nat.pow_le_pow_right (by norm_num) (by omega)))

/-- The first header word, written with Nat.lor exactly as the source
writes it with the | operator. -/
theorem RTPPacket.firstWord_eq_or (p : RTPPacket) :
    p.firstWord = (p.version <<< 30) ||| (p.padding <<< 29) ||| (p.extension <<< 28) |||
      (p.cc <<< 24) ||| (p.marker <<< 23) ||| (p.payload_type <<< 16) |||
      p.sequence_number := by
  simp [RTPPacket.firstWord, bor_eq_lor]

/-- A shifted value ored with a value below the shift amount is their sum. -/
theorem shiftLeft_lor_eq (a b k : Nat) (h : b < 2 ^ k) :
    a <<< k ||| b = 2 ^ k * a + b := by
  rw [Nat.shiftLeft_eq, Nat.mul_comm, ← Nat.mul_add_lt_is_or h]

/-- The first header word as a sum of its shifted fields, valid whenever
every field is within its declared bit width. -/
theorem RTPPacket.firstWord_eq (p : RTPPacket)
    (hv : p.version < 4) (hpd : p.padding < 2) (hx : p.extension < 2)
    (hcc : p.cc < 16) (hm : p.marker < 2) (hpt : p.payload_type < 128)
    (hseq : p.sequence_number < 65536) :
    p.firstWord = p.version * 2 ^ 30 + p.padding * 2 ^ 29 + p.extension * 2 ^ 28 +
      p.cc * 2 ^ 24 + p.marker * 2 ^ 23 + p.payload_type * 2 ^ 16 +
      p.sequence_number := by
  rw [RTPPacket.firstWord_eq_or]
  simp only [Nat.or_assoc]
  rw [shiftLeft_lor_eq p.payload_type p.sequence_number 16 (by omega)]
  rw [shiftLeft_lor_eq p.marker _ 23 (by omega)]
  rw [shiftLeft_lor_eq p.cc _ 24 (by omega)]
  rw [shiftLeft_lor_eq p.extension _ 28 (by omega)]
  rw [shiftLeft_lor_eq p.padding _ 29 (by omega)]
  rw [shiftLeft_lor_eq p.version _ 30 (by omega)]
  omega

/-- Masking with 0x3 is reduction mod 4. -/
theorem and_mask3 (y : Nat) : y &&& 3 = y % 4 := by
  have h := Nat.and_pow_two_sub_one_eq_mod y 2
  norm_num at h
  exact h

/-- Masking with 0x1 is reduction mod 2. -/
theorem and_mask1 (y : Nat) : y &&& 1 = y % 2 :=
  Nat.and_one_is_mod y

/-- Masking with 0xF is reduction mod 16. -/
theorem and_mask15 (y : Nat) : y &&& 15 = y % 16 := by
  have h := Nat.and_pow_two_sub_one_eq_mod y 4
  norm_num at h
  exact h

/-- Masking with 0x7F is reduction mod 128. -/
theorem and_mask127 (y : Nat) : y &&& 127 = y % 128 := by
  have h := Nat.and_pow_two_sub_one_eq_mod y 7
  norm_num at h
  exact h

/-- Masking with 0xFFFF is reduction mod 65536. -/
theorem and_mask65535 (y : Nat) : y &&& 65535 = y % 65536 := by
  have h := Nat.and_pow_two_sub_one_eq_mod y 16
  norm_num at h
  exact h

/-- Recombining the four big-endian bytes of a 32-bit word gives it back. -/
theorem be32_u32be (w : Nat) (h : w < 2 ^ 32) :
    be32 (w / 2 ^ 24 % 256) (w / 2 ^ 16 % 256) (w / 2 ^ 8 % 256) (w % 256) = w := by
  unfold be32
  omega

/-- unpack returns none exactly on inputs shorter than the 12-byte header. -/
theorem unpack_eq_none_iff (data : List Nat) :
    RTPPacket.unpack data = none ↔ data.length < 12 := by
  match data with
  | [] => simp [RTPPacket.unpack]
  | [b0] => simp [show RTPPacket.unpack [b0] = none from rfl]
  | [b0, b1] => simp [show RTPPacket.unpack [b0, b1] = none from rfl]
  | [b0, b1, b2] => simp [show RTPPacket.unpack [b0, b1, b2] = none from rfl]
  | [b0, b1, b2, b3] => simp [show RTPPacket.unpack [b0, b1, b2, b3] = none from rfl]
  | [b0, b1, b2, b3, b4] =>
      simp [show RTPPacket.unpack [b0, b1, b2, b3, b4] = none from rfl]
  | [b0, b1, b2, b3, b4, b5] =>
      simp [show RTPPacket.unpack [b0, b1, b2, b3, b4, b5] = none from rfl]
  | [b0, b1, b2, b3, b4, b5, b6] =>
      simp [show RTPPacket.unpack [b0, b1, b2, b3, b4, b5, b6] = none from rfl]
  | [b0, b1, b2, b3, b4, b5, b6, b7] =>
      simp [show RTPPacket.unpack [b0, b1, b2, b3, b4, b5, b6, b7] = none from rfl]
  | [b0, b1, b2, b3, b4, b5, b6, b7, b8] =>
      simp [show RTPPacket.unpack [b0, b1, b2, b3, b4, b5, b6, b7, b8] = none from rfl]
  | [b0, b1, b2, b3, b4, b5, b6, b7, b8, b9] =>
      simp [show RTPPacket.unpack [b0, b1, b2, b3, b4, b5, b6, b7, b8, b9] = none from rfl]
  | [b0, b1, b2, b3, b4, b5, b6, b7, b8, b9, b10] =>
      simp [show RTPPacket.unpack [b0, b1, b2, b3, b4, b5, b6, b7, b8, b9, b10] = none from rfl]
  | b0 :: b1 :: b2 :: b3 :: b4 :: b5 :: b6 :: b7 :: b8 :: b9 :: b10 :: b11 :: rest =>
      constructor
      · intro h
        exact absurd h (by simp [RTPPacket.unpack])
      · intro h
        simp at h
        omega

/-- C1: for every header field assignment within the declared ranges
(version 0..3, padding/extension/marker 0..1, csrc_count 0..15,
payload_type 0..127, sequence_number 0..65535, timestamp and ssrc below
2^32) and every payload byte sequence including the empty one,
RTPPacket.unpack applied to the output of RTPPacket.pack yields exactly the
same fields and the same payload. -/
theorem decode_encode_roundtrip (v pd x cc m pt sq ts ss : Nat) (pl : List Nat)
    (hv : v ≤ 3) (hpd : pd ≤ 1) (hx : x ≤ 1) (hcc : cc ≤ 15) (hm : m ≤ 1)
    (hpt : pt ≤ 127) (hsq : sq ≤ 65535) (hts : ts ≤ 2 ^ 32 - 1)
    (hss : ss ≤ 2 ^ 32 - 1) :
    (RTPPacket.pack ⟨v, pd, x, cc, m, pt, sq, ts, ss, pl⟩).bind RTPPacket.unpack
      = some ⟨v, pd, x, cc, m, pt, sq, ts, ss, pl⟩ := by
  have hfw : (⟨v, pd, x, cc, m, pt, sq, ts, ss, pl⟩ : RTPPacket).firstWord
      = v * 2 ^ 30 + pd * 2 ^ 29 + x * 2 ^ 28 + cc * 2 ^ 24 + m * 2 ^ 23 +
        pt * 2 ^ 16 + sq :=
    RTPPacket.firstWord_eq _ (show v < 4 by omega) (show pd < 2 by omega)
      (show x < 2 by omega) (show cc < 16 by omega) (show m < 2 by omega)
      (show pt < 128 by omega) (show sq < 65536 by omega)
  have hlt : (⟨v, pd, x, cc, m, pt, sq, ts, ss, pl⟩ : RTPPacket).firstWord < 2 ^ 32 := by
    rw [hfw]; omega
  unfold RTPPacket.pack
  rw [if_pos ⟨hlt, show ts < 2 ^ 32 by omega, show ss < 2 ^ 32 by omega⟩]
  rw [Option.some_bind]
  rw [hfw]
  dsimp only
  simp only [u32be, List.cons_append, List.nil_append, RTPPacket.unpack]
  rw [be32_u32be _ (by omega), be32_u32be _ (show ts < 2 ^ 32 by omega),
    be32_u32be _ (show ss < 2 ^ 32 by omega)]
  simp only [Option.some.injEq, RTPPacket.mk.injEq, Nat.shiftRight_eq_div_pow,
    and_mask3, and_mask1, and_mask15, and_mask127, and_mask65535, and_true,
    true_and]
  omega

/-- Witness for C1 at a concrete header and payload. -/
theorem decode_encode_roundtrip_witness :
    (RTPPacket.pack ⟨2, 1, 0, 3, 1, 96, 65535, 4294967295, 123, [9, 8]⟩).bind
        RTPPacket.unpack
      = some ⟨2, 1, 0, 3, 1, 96, 65535, 4294967295, 123, [9, 8]⟩ :=
  decode_encode_roundtrip 2 1 0 3 1 96 65535 4294967295 123 [9, 8]
    (by decide) (by decide) (by decide) (by decide) (by decide) (by decide)
    (by decide) (by norm_num) (by norm_num)

/-- The seven masked fields extracted from a 32-bit word reassemble to
exactly that word: the bit fields partition the word completely. -/
theorem firstWord_reassemble (W : Nat) (hW : W < 2 ^ 32) (t s : Nat) (pl : List Nat) :
    (⟨(W >>> 30) &&& 3, (W >>> 29) &&& 1, (W >>> 28) &&& 1, (W >>> 24) &&& 15,
      (W >>> 23) &&& 1, (W >>> 16) &&& 127, W &&& 65535, t, s, pl⟩ :
        RTPPacket).firstWord = W := by
  rw [RTPPacket.firstWord_eq]
  · simp only [Nat.shiftRight_eq_div_pow, and_mask3, and_mask1, and_mask15,
      and_mask127, and_mask65535]
    omega
  all_goals
    simp only [Nat.shiftRight_eq_div_pow, and_mask3, and_mask1, and_mask15,
      and_mask127, and_mask65535]
  all_goals omega

/-- C9: decoding followed by re-encoding is the identity on well-formed
wire data: for every byte sequence of length at least 12, packing the
packet obtained by unpacking it reproduces the input byte for byte. -/
theorem encode_decode_identity (data : List Nat) (hlen : 12 ≤ data.length)
    (hbytes : ∀ b ∈ data, b < 256) :
    (RTPPacket.unpack data).bind RTPPacket.pack = some data := by
  rcases data with _ | ⟨b0, _ | ⟨b1, _ | ⟨b2, _ | ⟨b3, _ | ⟨b4, _ | ⟨b5, _ | ⟨b6,
    _ | ⟨b7, _ | ⟨b8, _ | ⟨b9, _ | ⟨b10, _ | ⟨b11, rest⟩⟩⟩⟩⟩⟩⟩⟩⟩⟩⟩⟩ <;>
      try simp at hlen
  have h0 : b0 < 256 := hbytes b0 (by simp)
  have h1 : b1 < 256 := hbytes b1 (by simp)
  have h2 : b2 < 256 := hbytes b2 (by simp)
  have h3 : b3 < 256 := hbytes b3 (by simp)
  have h4 : b4 < 256 := hbytes b4 (by simp)
  have h5 : b5 < 256 := hbytes b5 (by simp)
  have h6 : b6 < 256 := hbytes b6 (by simp)
  have h7 : b7 < 256 := hbytes b7 (by simp)
  have h8 : b8 < 256 := hbytes b8 (by simp)
  have h9 : b9 < 256 := hbytes b9 (by simp)
  have h10 : b10 < 256 := hbytes b10 (by simp)
  have h11 : b11 < 256 := hbytes b11 (by simp)
  have hW0 : be32 b0 b1 b2 b3 < 2 ^ 32 := by unfold be32; omega
  have hW1 : be32 b4 b5 b6 b7 < 2 ^ 32 := by unfold be32; omega
  have hW2 : be32 b8 b9 b10 b11 < 2 ^ 32 := by unfold be32; omega
  simp only [RTPPacket.unpack, Option.some_bind]
  have hfw := firstWord_reassemble (be32 b0 b1 b2 b3) hW0
    (be32 b4 b5 b6 b7) (be32 b8 b9 b10 b11) rest
  unfold RTPPacket.pack
  dsimp only
  rw [hfw]
  rw [if_pos ⟨hW0, hW1, hW2⟩]
  simp only [u32be, be32, List.cons_append, List.nil_append, Option.some.injEq,
    List.cons.injEq, and_true]
  omega

/-- Witness for C9 at a concrete 13-byte datagram. -/
theorem encode_decode_identity_witness :
    (RTPPacket.unpack [146, 5, 1, 2, 0, 0, 4, 0, 9, 9, 9, 9, 77]).bind RTPPacket.pack
      = some [146, 5, 1, 2, 0, 0, 4, 0, 9, 9, 9, 9, 77] :=
  encode_decode_identity [146, 5, 1, 2, 0, 0, 4, 0, 9, 9, 9, 9, 77]
    (by decide) (by decide)

/-- C3: unpack fails exactly on inputs shorter than 12 bytes; on any
input of length at least 12 it succeeds and returns the bit-masked header
fields read from the first 12 bytes together with the bytes from index 12
onward as payload, with no range check on any field beyond its bit
width. -/
theorem unpack_short_iff_fields (data : List Nat) :
    (RTPPacket.unpack data = none ↔ data.length < 12) ∧
    (12 ≤ data.length →
      RTPPacket.unpack data = some
        { version := (word32At data 0 >>> 30) &&& 0x3
          padding := (word32At data 0 >>> 29) &&& 0x1
          extension := (word32At data 0 >>> 28) &&& 0x1
          cc := (word32At data 0 >>> 24) &&& 0xF
          marker := (word32At data 0 >>> 23) &&& 0x1
          payload_type := (word32At data 0 >>> 16) &&& 0x7F
          sequence_number := word32At data 0 &&& 0xFFFF
          timestamp := word32At data 4
          ssrc := word32At data 8
          payload := data.drop 12 }) := by
  refine ⟨unpack_eq_none_iff data, ?_⟩
  intro hlen
  rcases data with _ | ⟨b0, _ | ⟨b1, _ | ⟨b2, _ | ⟨b3, _ | ⟨b4, _ | ⟨b5, _ | ⟨b6,
    _ | ⟨b7, _ | ⟨b8, _ | ⟨b9, _ | ⟨b10, _ | ⟨b11, rest⟩⟩⟩⟩⟩⟩⟩⟩⟩⟩⟩⟩ <;>
      try simp at hlen
  rfl

/-- Witness for C3 at a concrete 12-byte datagram. -/
theorem unpack_short_iff_fields_witness :
    RTPPacket.unpack [0, 0, 0, 0, 0, 0, 0, 0, 0, 0, 0, 7]
      = some ⟨0, 0, 0, 0, 0, 0, 0, 0, 7, []⟩ := by
  have h := (unpack_short_iff_fields [0, 0, 0, 0, 0, 0, 0, 0, 0, 0, 0, 7]).2
    (by decide)
  rw [h]
  rfl

/-- C8: for fields within the declared ranges, pack succeeds and produces
the 12-byte header — three 32-bit big-endian words, the first combining
version, padding, extension, csrc count, marker, payload type and
sequence number, then the timestamp, then the ssrc — followed by the raw
payload, so the output length is exactly 12 plus the payload length. -/
theorem pack_output (v pd x cc m pt sq ts ss : Nat) (pl : List Nat)
    (hv : v ≤ 3) (hpd : pd ≤ 1) (hx : x ≤ 1) (hcc : cc ≤ 15) (hm : m ≤ 1)
    (hpt : pt ≤ 127) (hsq : sq ≤ 65535) (hts : ts ≤ 2 ^ 32 - 1)
    (hss : ss ≤ 2 ^ 32 - 1) :
    RTPPacket.pack ⟨v, pd, x, cc, m, pt, sq, ts, ss, pl⟩
      = some (u32be (v * 2 ^ 30 + pd * 2 ^ 29 + x * 2 ^ 28 + cc * 2 ^ 24 +
          m * 2 ^ 23 + pt * 2 ^ 16 + sq) ++ u32be ts ++ u32be ss ++ pl) ∧
    (∀ out, RTPPacket.pack ⟨v, pd, x, cc, m, pt, sq, ts, ss, pl⟩ = some out →
      out.length = 12 + pl.length) := by
  have hfw : (⟨v, pd, x, cc, m, pt, sq, ts, ss, pl⟩ : RTPPacket).firstWord
      = v * 2 ^ 30 + pd * 2 ^ 29 + x * 2 ^ 28 + cc * 2 ^ 24 + m * 2 ^ 23 +
        pt * 2 ^ 16 + sq :=
    RTPPacket.firstWord_eq _ (show v < 4 by omega) (show pd < 2 by omega)
      (show x < 2 by omega) (show cc < 16 by omega) (show m < 2 by omega)
      (show pt < 128 by omega) (show sq < 65536 by omega)
  have hlt : (⟨v, pd, x, cc, m, pt, sq, ts, ss, pl⟩ : RTPPacket).firstWord < 2 ^ 32 := by
    rw [hfw]; omega
  have hmain : RTPPacket.pack ⟨v, pd, x, cc, m, pt, sq, ts, ss, pl⟩
      = some (u32be (v * 2 ^ 30 + pd * 2 ^ 29 + x * 2 ^ 28 + cc * 2 ^ 24 +
          m * 2 ^ 23 + pt * 2 ^ 16 + sq) ++ u32be ts ++ u32be ss ++ pl) := by
    unfold RTPPacket.pack
    rw [if_pos ⟨hlt, show ts < 2 ^ 32 by omega, show ss < 2 ^ 32 by omega⟩]
    rw [hfw]
  refine ⟨hmain, ?_⟩
  intro out hout
  rw [hmain] at hout
  cases hout
  simp [u32be]
  omega

/-- Witness for C8 at a concrete header and payload. -/
theorem pack_output_witness :
    RTPPacket.pack ⟨2, 0, 0, 0, 0, 0, 17, 2048, 99, [1, 2, 3]⟩
      = some (u32be (2 * 2 ^ 30 + 0 * 2 ^ 29 + 0 * 2 ^ 28 + 0 * 2 ^ 24 +
          0 * 2 ^ 23 + 0 * 2 ^ 16 + 17) ++ u32be 2048 ++ u32be 99 ++ [1, 2, 3]) ∧
    (∀ out, RTPPacket.pack ⟨2, 0, 0, 0, 0, 0, 17, 2048, 99, [1, 2, 3]⟩ = some out →
      out.length = 12 + ([1, 2, 3] : List Nat).length) :=
  pack_output 2 0 0 0 0 0 17 2048 99 [1, 2, 3] (by decide) (by decide) (by decide)
    (by decide) (by decide) (by decide) (by decide) (by norm_num) (by norm_num)

/-- Under in-range session counters, one sender iteration succeeds and
advances the counters: sequence number mod 65536, timestamp by CHUNK with
no reduction. -/
theorem sendOne_eq_some (s : RTPVoiceChat) (c : List Nat)
    (hseq : s.sequence_number < 65536) (hts : s.timestamp < 2 ^ 32)
    (hssrc : s.ssrc < 2 ^ 32) :
    RTPVoiceChat.sendOne s c
      = some ({ s with sequence_number := (s.sequence_number + 1) % 65536,
                       timestamp := s.timestamp + s.CHUNK },
              RTPVoiceChat.mkAudioPacket s c) := by
  have h := RTPPacket.firstWord_eq (RTPVoiceChat.mkAudioPacket s c)
    (show (2 : Nat) < 4 by norm_num) (show (0 : Nat) < 2 by norm_num)
    (show (0 : Nat) < 2 by norm_num) (show (0 : Nat) < 16 by norm_num)
    (show (0 : Nat) < 2 by norm_num) (show (0 : Nat) < 128 by norm_num) hseq
  have hlt : (RTPVoiceChat.mkAudioPacket s c).firstWord < 2 ^ 32 := by
    rw [h]
    dsimp only [RTPVoiceChat.mkAudioPacket]
    omega
  have hpack : ∃ w, (RTPVoiceChat.mkAudioPacket s c).pack = some w := by
    unfold RTPPacket.pack
    rw [if_pos ⟨hlt, hts, hssrc⟩]
    exact ⟨_, rfl⟩
  obtain ⟨w, hw⟩ := hpack
  unfold RTPVoiceChat.sendOne
  rw [hw]

/-- While no counter overflows, the sender loop sends one packet per
chunk: the i-th packet carries sequence number advanced by i mod 65536,
timestamp advanced by i * 1024 and the session ssrc, and the final state
holds the advanced counters, the timestamp accumulated with no
reduction. -/
theorem send_audio_spec (chunks : List (List Nat)) (s : RTPVoiceChat)
    (hseq : s.sequence_number < 65536) (hssrc : s.ssrc < 2 ^ 32)
    (hrun : s.running = true) (hchunk : s.CHUNK = 1024)
    (hts : s.timestamp + chunks.length * 1024 ≤ 2 ^ 32) :
    (RTPVoiceChat.send_audio s chunks).2
        = (List.range chunks.length).map (fun i =>
            { payload_type := 0
              sequence_number := (s.sequence_number + i) % 65536
              timestamp := s.timestamp + i * 1024
              ssrc := s.ssrc
              payload := chunks.getD i [] }) ∧
    (RTPVoiceChat.send_audio s chunks).1.sequence_number
        = (s.sequence_number + chunks.length) % 65536 ∧
    (RTPVoiceChat.send_audio s chunks).1.timestamp
        = s.timestamp + chunks.length * 1024 := by
  induction chunks generalizing s with
  | nil =>
      refine ⟨by simp [RTPVoiceChat.send_audio], ?_, ?_⟩ <;>
        simp [RTPVoiceChat.send_audio] <;> omega
  | cons c cs ih =>
      have hone := sendOne_eq_some s c hseq (by simp only [List.length_cons] at hts; omega) hssrc
      obtain ⟨hpk, hsq, htm⟩ := ih
        { s with sequence_number := (s.sequence_number + 1) % 65536,
                 timestamp := s.timestamp + s.CHUNK }
        (show (s.sequence_number + 1) % 65536 < 65536 by omega)
        (show s.ssrc < 2 ^ 32 from hssrc)
        (show s.running = true from hrun)
        (show s.CHUNK = 1024 from hchunk)
        (by show s.timestamp + s.CHUNK + cs.length * 1024 ≤ 2 ^ 32
            simp only [List.length_cons] at hts
            omega)
      refine ⟨?_, ?_, ?_⟩
      · simp only [RTPVoiceChat.send_audio, hone]
        rw [if_pos hrun]
        rw [hpk]
        rw [List.length_cons, List.range_succ_eq_map, List.map_cons, List.map_map]
        simp only [List.cons.injEq]
        constructor
        · simp [RTPVoiceChat.mkAudioPacket, Nat.mod_eq_of_lt hseq]
        · apply List.map_congr_left
          intro i hi
          simp only [Function.comp_apply, Nat.succ_eq_add_one, RTPPacket.mk.injEq,
            List.getD_cons_succ, hchunk, true_and, and_true]
          constructor <;> omega
      · simp only [RTPVoiceChat.send_audio, hone]
        rw [if_pos hrun]
        rw [hsq]
        simp only [List.length_cons]
        show ((s.sequence_number + 1) % 65536 + cs.length) % 65536
          = (s.sequence_number + (cs.length + 1)) % 65536
        omega
      · simp only [RTPVoiceChat.send_audio, hone]
        rw [if_pos hrun]
        rw [htm]
        simp only [List.length_cons]
        show s.timestamp + s.CHUNK + cs.length * 1024
          = s.timestamp + (cs.length + 1) * 1024
        omega

/-- Whatever chunks arrive and wherever the loop stops, the packets the
sender emits carry consecutive sequence numbers mod 65536 starting from
the current one of the session. -/
theorem send_audio_seq_map (chunks : List (List Nat)) (s : RTPVoiceChat)
    (hseq : s.sequence_number < 65536) :
    (RTPVoiceChat.send_audio s chunks).2.map RTPPacket.sequence_number
      = (List.range (RTPVoiceChat.send_audio s chunks).2.length).map
          (fun i => (s.sequence_number + i) % 65536) := by
  induction chunks generalizing s with
  | nil => simp [RTPVoiceChat.send_audio]
  | cons c cs ih =>
      by_cases hrun : s.running = true
      · rcases hp : (RTPVoiceChat.mkAudioPacket s c).pack with _ | w
        · have hsend : RTPVoiceChat.sendOne s c = none := by
            unfold RTPVoiceChat.sendOne
            rw [hp]
          simp [RTPVoiceChat.send_audio, hsend, hrun]
        · have hsend : RTPVoiceChat.sendOne s c
              = some ({ s with sequence_number := (s.sequence_number + 1) % 65536,
                               timestamp := s.timestamp + s.CHUNK },
                      RTPVoiceChat.mkAudioPacket s c) := by
            unfold RTPVoiceChat.sendOne
            rw [hp]
          simp only [RTPVoiceChat.send_audio, hsend]
          rw [if_pos hrun]
          have hrec := ih
            { s with sequence_number := (s.sequence_number + 1) % 65536,
                     timestamp := s.timestamp + s.CHUNK }
            (show (s.sequence_number + 1) % 65536 < 65536 by omega)
          simp only [List.map_cons, List.length_cons, List.range_succ_eq_map,
            List.map_map, hrec, List.cons.injEq]
          refine ⟨?_, ?_⟩
          · show s.sequence_number = (s.sequence_number + 0) % 65536
            omega
          · apply List.map_congr_left
            intro i hi
            simp only [Function.comp_apply, Nat.succ_eq_add_one]
            show ((s.sequence_number + 1) % 65536 + i) % 65536
              = (s.sequence_number + (i + 1)) % 65536
            omega
      · simp [RTPVoiceChat.send_audio, hrun]

/-- Every packet the sender loop emits carries the session ssrc, and the
loop never changes the stored ssrc. -/
theorem send_audio_ssrc (chunks : List (List Nat)) (s : RTPVoiceChat) :
    (∀ pkt ∈ (RTPVoiceChat.send_audio s chunks).2, pkt.ssrc = s.ssrc) ∧
    (RTPVoiceChat.send_audio s chunks).1.ssrc = s.ssrc := by
  induction chunks generalizing s with
  | nil => simp [RTPVoiceChat.send_audio]
  | cons c cs ih =>
      by_cases hrun : s.running = true
      · rcases hp : (RTPVoiceChat.mkAudioPacket s c).pack with _ | w
        · have hsend : RTPVoiceChat.sendOne s c = none := by
            unfold RTPVoiceChat.sendOne
            rw [hp]
          simp [RTPVoiceChat.send_audio, hsend, hrun]
        · have hsend : RTPVoiceChat.sendOne s c
              = some ({ s with sequence_number := (s.sequence_number + 1) % 65536,
                               timestamp := s.timestamp + s.CHUNK },
                      RTPVoiceChat.mkAudioPacket s c) := by
            unfold RTPVoiceChat.sendOne
            rw [hp]
          simp only [RTPVoiceChat.send_audio, hsend]
          rw [if_pos hrun]
          obtain ⟨ihm, ihs⟩ := ih
            { s with sequence_number := (s.sequence_number + 1) % 65536,
                     timestamp := s.timestamp + s.CHUNK }
          constructor
          · intro pkt hm
            rcases List.mem_cons.mp hm with hh | ht
            · rw [hh]
              rfl
            · exact ihm pkt ht
          · exact ihs
      · simp [RTPVoiceChat.send_audio, hrun]

/-- One receiver iteration never touches the session ssrc. -/
theorem receiveIter_ssrc (s : RTPVoiceChat) (d : List Nat) :
    (RTPVoiceChat.receiveIter s d).ssrc = s.ssrc := by
  rcases h : RTPPacket.unpack d with _ | pkt <;>
    simp [RTPVoiceChat.receiveIter, h]

/-- The receiver loop never touches the session ssrc. -/
theorem receive_audio_ssrc (ds : List (List Nat)) (s : RTPVoiceChat) :
    (RTPVoiceChat.receive_audio s ds).ssrc = s.ssrc := by
  induction ds generalizing s with
  | nil => simp [RTPVoiceChat.receive_audio]
  | cons d ds ih =>
      by_cases hrun : s.running = true
      · simp only [RTPVoiceChat.receive_audio]
        rw [if_pos hrun, ih, receiveIter_ssrc]
      · simp [RTPVoiceChat.receive_audio, hrun]

/-- pack fails whenever any of the three header words does not fit in 32
bits, exactly as struct.pack raises for an out-of-range argument. -/
theorem pack_eq_none_of_overflow (p : RTPPacket)
    (h : 2 ^ 32 ≤ p.timestamp ∨ 2 ^ 32 ≤ p.ssrc ∨ 2 ^ 32 ≤ p.firstWord) :
    p.pack = none := by
  unfold RTPPacket.pack
  rw [if_neg]
  intro hc
  rcases hc with ⟨h1, h2, h3⟩
  omega

/-- A sender state whose accumulated timestamp does not fit in 32 bits
makes the encode of the next send fail, so the iteration returns the error
outcome. -/
theorem sendOne_eq_none_of_overflow (s : RTPVoiceChat) (c : List Nat)
    (h : 2 ^ 32 ≤ s.timestamp) : RTPVoiceChat.sendOne s c = none := by
  have hnone := pack_eq_none_of_overflow (RTPVoiceChat.mkAudioPacket s c) (Or.inl h)
  unfold RTPVoiceChat.sendOne
  rw [hnone]

/-- C2 counterexample: the sender timestamp update is not reduction mod
2^32 and the stored timestamp does not stay below 2^32: from a freshly
started session with chunk size 1024, after 2^22 sends the stored
timestamp equals 2^32 exactly. -/
theorem timestamp_reaches_two_pow_32 :
    (RTPVoiceChat.send_audio ((RTPVoiceChat.init 0 0).start_chat)
        (List.replicate (2 ^ 22) [])).1.timestamp = 2 ^ 32 ∧
    ¬ (RTPVoiceChat.send_audio ((RTPVoiceChat.init 0 0).start_chat)
        (List.replicate (2 ^ 22) [])).1.timestamp < 2 ^ 32 := by
  obtain ⟨hpk, hsq, htm⟩ := send_audio_spec (List.replicate (2 ^ 22) [])
    ((RTPVoiceChat.init 0 0).start_chat)
    (show (0 : Nat) < 65536 by norm_num) (show (0 : Nat) < 2 ^ 32 by norm_num)
    rfl rfl
    (by rw [List.length_replicate]
        show (0 : Nat) + 2 ^ 22 * 1024 ≤ 2 ^ 32
        norm_num)
  rw [List.length_replicate] at htm
  have hval : (RTPVoiceChat.send_audio ((RTPVoiceChat.init 0 0).start_chat)
      (List.replicate (2 ^ 22) [])).1.timestamp = 2 ^ 32 := by
    rw [htm]
    show (0 : Nat) + 2 ^ 22 * 1024 = 2 ^ 32
    norm_num
  exact ⟨hval, by rw [hval]; omega⟩

/-- C2 amended: the update adds the chunk size with no reduction, so while
the accumulated timestamp stays at most 2^32 every send succeeds, the
i-th packet carries timestamp i * 1024 (equal to its residue mod 2^32),
and the stored timestamp after N sends is exactly N * 1024, which can
reach 2^32. -/
theorem timestamp_advancement_amended (s0 ss0 : Nat) (chunks : List (List Nat))
    (hs0 : s0 ≤ 65535) (hss : ss0 ≤ 2 ^ 32 - 1)
    (hN : chunks.length * 1024 ≤ 2 ^ 32) :
    (RTPVoiceChat.send_audio ((RTPVoiceChat.init s0 ss0).start_chat) chunks).2.map
        RTPPacket.timestamp
      = (List.range chunks.length).map (fun i => i * 1024 % 2 ^ 32) ∧
    (RTPVoiceChat.send_audio ((RTPVoiceChat.init s0 ss0).start_chat) chunks).1.timestamp
      = chunks.length * 1024 := by
  obtain ⟨hpk, hsq, htm⟩ := send_audio_spec chunks ((RTPVoiceChat.init s0 ss0).start_chat)
    (show s0 < 65536 by omega) (show ss0 < 2 ^ 32 by omega) rfl rfl
    (show (0 : Nat) + chunks.length * 1024 ≤ 2 ^ 32 by omega)
  constructor
  · rw [hpk, List.map_map]
    apply List.map_congr_left
    intro i hi
    have hilt : i < chunks.length := List.mem_range.mp hi
    show (0 : Nat) + i * 1024 = i * 1024 % 2 ^ 32
    have : i * 1024 < 2 ^ 32 := by omega
    omega
  · rw [htm]
    show (0 : Nat) + chunks.length * 1024 = chunks.length * 1024
    omega

/-- Witness for the amended C2 at a concrete two-chunk run. -/
theorem timestamp_advancement_amended_witness :
    (RTPVoiceChat.send_audio ((RTPVoiceChat.init 0 0).start_chat) [[7], [8]]).2.map
        RTPPacket.timestamp
      = (List.range ([[7], [8]] : List (List Nat)).length).map (fun i => i * 1024 % 2 ^ 32) ∧
    (RTPVoiceChat.send_audio ((RTPVoiceChat.init 0 0).start_chat) [[7], [8]]).1.timestamp
      = ([[7], [8]] : List (List Nat)).length * 1024 :=
  timestamp_advancement_amended 0 0 [[7], [8]] (by norm_num) (by norm_num) (by norm_num)

/-- C4: every packet the freshly started session sends carries sequence
number s0 + i mod 65536 where s0 is the initial value and i is the
packet position, and in particular with s0 = 65535 two sends yield 65535 then
0. -/
theorem sequence_numbers_consecutive (s0 ss0 : Nat) (chunks : List (List Nat))
    (hs0 : s0 ≤ 65535) :
    (RTPVoiceChat.send_audio ((RTPVoiceChat.init s0 ss0).start_chat) chunks).2.map
        RTPPacket.sequence_number
      = (List.range
          (RTPVoiceChat.send_audio ((RTPVoiceChat.init s0 ss0).start_chat) chunks).2.length).map
          (fun i => (s0 + i) % 65536) ∧
    (RTPVoiceChat.send_audio ((RTPVoiceChat.init 65535 0).start_chat) [[], []]).2.map
        RTPPacket.sequence_number
      = [65535, 0] := by
  constructor
  · exact send_audio_seq_map chunks ((RTPVoiceChat.init s0 ss0).start_chat)
      (show s0 < 65536 by omega)
  · decide

/-- Witness for C4 at the wrap-around instance. -/
theorem sequence_numbers_consecutive_witness :
    (RTPVoiceChat.send_audio ((RTPVoiceChat.init 65535 0).start_chat) [[], []]).2.map
        RTPPacket.sequence_number
      = [65535, 0] :=
  (sequence_numbers_consecutive 65535 0 [[], []] (by norm_num)).2

/-- C5: stop_chat is idempotent: a second call is a no-op that leaves the
session exactly as the first call left it, with the running flag cleared,
the audio handles closed and the socket closed. -/
theorem stop_chat_idempotent (s : RTPVoiceChat) :
    RTPVoiceChat.stop_chat (RTPVoiceChat.stop_chat s) = RTPVoiceChat.stop_chat s ∧
    (RTPVoiceChat.stop_chat s).running = false ∧
    (RTPVoiceChat.stop_chat s).socket_open = false ∧
    (RTPVoiceChat.stop_chat s).audio_terminated = true ∧
    (RTPVoiceChat.stop_chat s).input_stream = s.input_stream.map StreamState.shutdown ∧
    (RTPVoiceChat.stop_chat s).output_stream = s.output_stream.map StreamState.shutdown := by
  refine ⟨?_, rfl, rfl, rfl, rfl, rfl⟩
  have hcomp : StreamState.shutdown ∘ StreamState.shutdown = StreamState.shutdown :=
    funext fun st => rfl
  unfold RTPVoiceChat.stop_chat
  dsimp only
  rw [Option.map_map, Option.map_map, hcomp]

/-- C6: every packet the sender loop emits carries the ssrc chosen at
construction, and none of the session operations changes the stored ssrc
after construction. -/
theorem ssrc_stable (s0 ss0 : Nat) (chunks ds : List (List Nat)) :
    (RTPVoiceChat.init s0 ss0).ssrc = ss0 ∧
    (∀ pkt ∈ (RTPVoiceChat.send_audio ((RTPVoiceChat.init s0 ss0).start_chat) chunks).2,
      pkt.ssrc = ss0) ∧
    (RTPVoiceChat.send_audio ((RTPVoiceChat.init s0 ss0).start_chat) chunks).1.ssrc = ss0 ∧
    (∀ t : RTPVoiceChat, t.start_chat.ssrc = t.ssrc ∧
      (RTPVoiceChat.send_audio t chunks).1.ssrc = t.ssrc ∧
      (RTPVoiceChat.receive_audio t ds).ssrc = t.ssrc ∧
      t.stop_chat.ssrc = t.ssrc) := by
  refine ⟨rfl, ?_, ?_, ?_⟩
  · intro pkt hm
    exact (send_audio_ssrc chunks ((RTPVoiceChat.init s0 ss0).start_chat)).1 pkt hm
  · exact (send_audio_ssrc chunks ((RTPVoiceChat.init s0 ss0).start_chat)).2
  · intro t
    exact ⟨rfl, (send_audio_ssrc chunks t).2, receive_audio_ssrc ds t, rfl⟩

/-- Witness for C6: the one packet of a concrete one-chunk run carries the
injected ssrc 5. -/
theorem ssrc_stable_witness :
    RTPVoiceChat.mkAudioPacket ((RTPVoiceChat.init 1 5).start_chat) [] ∈
      (RTPVoiceChat.send_audio ((RTPVoiceChat.init 1 5).start_chat) [[]]).2 ∧
    (RTPVoiceChat.mkAudioPacket ((RTPVoiceChat.init 1 5).start_chat) []).ssrc = 5 :=
  ⟨by decide, (ssrc_stable 1 5 [[]] []).2.1 _ (by decide)⟩

/-- C7: a datagram shorter than 12 bytes is dropped by the receiver loop:
the iteration leaves the session state (in particular the playback log and
the running flag) unchanged, and the loop goes on to the next datagram. -/
theorem receiver_drops_short (s : RTPVoiceChat) (d : List Nat) (ds : List (List Nat))
    (hd : d.length < 12) (hrun : s.running = true) :
    RTPVoiceChat.receiveIter s d = s ∧
    RTPVoiceChat.receive_audio s (d :: ds) = RTPVoiceChat.receive_audio s ds ∧
    (RTPVoiceChat.receiveIter s d).played = s.played ∧
    (RTPVoiceChat.receiveIter s d).running = true := by
  have hnone : RTPPacket.unpack d = none := (unpack_eq_none_iff d).mpr hd
  have hiter : RTPVoiceChat.receiveIter s d = s := by
    simp [RTPVoiceChat.receiveIter, hnone]
  refine ⟨hiter, ?_, by rw [hiter], by rw [hiter]; exact hrun⟩
  simp only [RTPVoiceChat.receive_audio]
  rw [if_pos hrun, hiter]

/-- Witness for C7 at a concrete running session and empty datagram. -/
theorem receiver_drops_short_witness :
    RTPVoiceChat.receiveIter ((RTPVoiceChat.init 0 0).start_chat) [] =
      (RTPVoiceChat.init 0 0).start_chat ∧
    RTPVoiceChat.receive_audio ((RTPVoiceChat.init 0 0).start_chat) [[]] =
      RTPVoiceChat.receive_audio ((RTPVoiceChat.init 0 0).start_chat) [] ∧
    (RTPVoiceChat.receiveIter ((RTPVoiceChat.init 0 0).start_chat) []).played =
      ((RTPVoiceChat.init 0 0).start_chat).played ∧
    (RTPVoiceChat.receiveIter ((RTPVoiceChat.init 0 0).start_chat) []).running = true :=
  receiver_drops_short ((RTPVoiceChat.init 0 0).start_chat) [] [] (by decide) rfl

/-- C10: pack is partial outside the declared ranges: it fails whenever
the timestamp, the ssrc or the combined first word does not fit in 32
bits, and in particular the sender state reached after 2^22 sends from a
fresh session, whose accumulated timestamp equals 2^32, makes the next
encode of the next send fail. -/
theorem pack_fails_out_of_range :
    (∀ p : RTPPacket,
      2 ^ 32 ≤ p.timestamp ∨ 2 ^ 32 ≤ p.ssrc ∨ 2 ^ 32 ≤ p.firstWord → p.pack = none) ∧
    RTPVoiceChat.sendOne
      (RTPVoiceChat.send_audio ((RTPVoiceChat.init 0 0).start_chat)
        (List.replicate (2 ^ 22) [])).1 [] = none := by
  constructor
  · exact pack_eq_none_of_overflow
  · obtain ⟨hpk, hsq, htm⟩ := send_audio_spec (List.replicate (2 ^ 22) [])
      ((RTPVoiceChat.init 0 0).start_chat)
      (show (0 : Nat) < 65536 by norm_num) (show (0 : Nat) < 2 ^ 32 by norm_num)
      rfl rfl
      (by rw [List.length_replicate]
          show (0 : Nat) + 2 ^ 22 * 1024 ≤ 2 ^ 32
          norm_num)
    rw [List.length_replicate] at htm
    apply sendOne_eq_none_of_overflow
    rw [htm]
    show (2 : Nat) ^ 32 ≤ 0 + 2 ^ 22 * 1024
    norm_num

/-- Witness for C10 at a concrete out-of-range packet. -/
theorem pack_fails_out_of_range_witness :
    ({ timestamp := 2 ^ 32 } : RTPPacket).pack = none :=
  pack_fails_out_of_range.1 { timestamp := 2 ^ 32 } (Or.inl (by norm_num))

end RTPVoice
